import Mathlib

/-!
Shallow embedding of the BiggerTask macro recorder/player (Qt + X11, C++).

Sources embedded here: `src/unnamed/part_001` (the current revision, with
hotkeys, config and the combo-capture dialog) and `src/BiggerTask.cpp`
(an earlier revision whose recorder/player/serializer bodies are
identical for the parts modelled below).

Modelling conventions:
* C++ `int` / `int64_t` become `Int`; X keycodes (`unsigned int`) become
  `Nat`, with the `(int)`/`(unsigned)` casts of the serializer modelled
  explicitly modulo 2^32.
* The X11 backend (XOpenDisplay, XTest injection, XRandR enumeration) is
  abstracted: the monitor layout is a list of outputs, the raw-input
  stream is a list of notifications, and injected events are collected
  into a trace instead of being sent to the X server.
* `double` arithmetic appears in exactly two places: the playback
  division `ms_since_start / speed` (modelled with `ℚ` and an explicit
  truncation toward zero, exact for the speeds and timestamps the claims
  mention) and the JSON `t` field (an `int64 → double → int64` round
  trip, exact below 2^53 and modelled as the identity).
-/

namespace BiggerTask

/-- Tag of the `Event::Type` enum: `enum Type { MouseMove, MouseButton, Key }`. -/
inductive EType
  | MouseMove
  | MouseButton
  | Key
deriving DecidableEq

/-- The flat `struct Event` of the source, with the same member defaults
(`{0}`, `false`, empty string) that `Event e{};` produces. -/
structure Event where
  type : EType := EType.MouseMove
  ms_since_start : Int := 0
  x : Int := 0
  y : Int := 0
  button : Int := 0
  pressed : Bool := false
  keycode : Nat := 0
  monitor : String := ""
  relx : Int := 0
  rely : Int := 0
deriving DecidableEq

instance : Inhabited Event := ⟨{}⟩

/-- `struct MonitorInfo { QString name; int x, y, width, height; }`. -/
structure MonitorInfo where
  name : String := ""
  x : Int := 0
  y : Int := 0
  width : Int := 0
  height : Int := 0
deriving DecidableEq

/-- One XRandR output as enumerated by `XRRGetScreenResourcesCurrent`:
its name, whether `output->connection == RR_Connected`, whether it has an
active crtc, and the crtc geometry. -/
structure Output where
  name : String
  connected : Bool
  hasCrtc : Bool
  x : Int
  y : Int
  width : Int
  height : Int
deriving DecidableEq

/-- `findMonitorForPoint`: walks the outputs in enumeration order and
returns the first connected output with a crtc whose rectangle
`[x0, x0+w) × [y0, y0+h)` contains the point; the zero-initialised
`MonitorInfo{"",0,0,0,0}` if none matches. -/
def findMonitorForPoint : List Output → Int → Int → MonitorInfo
  | [], _, _ => {}
  | o :: rest, x, y =>
    if o.connected = true ∧ o.hasCrtc = true ∧
        o.x ≤ x ∧ x < o.x + o.width ∧ o.y ≤ y ∧ y < o.y + o.height then
      { name := o.name, x := o.x, y := o.y, width := o.width, height := o.height }
    else findMonitorForPoint rest x y

/-- `findMonitorByName`: same enumeration, name-equality match, returning
`MonitorInfo{"",0,0,0,0}` when the name is absent from the layout. -/
def findMonitorByName : List Output → String → MonitorInfo
  | [], _ => {}
  | o :: rest, nm =>
    if o.connected = true ∧ o.hasCrtc = true ∧ nm = o.name then
      { name := o.name, x := o.x, y := o.y, width := o.width, height := o.height }
    else findMonitorByName rest nm

/-- A raw XInput2 notification as consumed by `RecorderThread::run`.
Motion and button notifications carry the absolute pointer position that
`XQueryPointer` reports while the notification is handled. -/
inductive RawEv
  | rawMotion (x y : Int)
  | rawButton (press : Bool) (button : Int) (x y : Int)
  | rawKey (press : Bool) (code : Nat)
deriving DecidableEq

/-- Mutable state of the recorder loop: `last_x`/`last_y` (initialised to
`-1`), the `downButtons` set (an `std::unordered_set<int>`, modelled as a
duplicate-free list in insertion order) and the accumulated `events`. -/
structure RecState where
  last_x : Int
  last_y : Int
  downButtons : List Int
  events : List Event
deriving DecidableEq

/-- Recorder state at the top of the capture loop (`events.clear()`,
`last_x = last_y = -1`, no held buttons). -/
def initState : RecState :=
  { last_x := -1, last_y := -1, downButtons := [], events := [] }

/-- `downButtons.insert(b)` on the `unordered_set`: a no-op when the
button is already held. -/
def insertBtn (down : List Int) (b : Int) : List Int :=
  if b ∈ down then down else down ++ [b]

/-- `downButtons.erase(b)` on the `unordered_set`. -/
def eraseBtn (down : List Int) (b : Int) : List Int :=
  down.filter (fun x => decide (x ≠ b))

/-- One iteration of the recorder's event switch, at elapsed time `t`:
motion is deduplicated against `last_x`/`last_y` and resolved to a
monitor, button notifications update the held set and append a
`MouseButton` event, key notifications append a `Key` event. -/
def recordStep (layout : List Output) (st : RecState) (t : Int) (ev : RawEv) : RecState :=
  match ev with
  | RawEv.rawMotion x y =>
    if x ≠ st.last_x ∨ y ≠ st.last_y then
      let mi := findMonitorForPoint layout x y
      { st with
          events := st.events ++
            [{ type := EType.MouseMove, ms_since_start := t, x := x, y := y
               monitor := mi.name, relx := x - mi.x, rely := y - mi.y }]
          last_x := x
          last_y := y }
    else st
  | RawEv.rawButton press b x y =>
    let down := if press then insertBtn st.downButtons b else eraseBtn st.downButtons b
    let mi := findMonitorForPoint layout x y
    { st with
        downButtons := down
        events := st.events ++
          [{ type := EType.MouseButton, ms_since_start := t, x := x, y := y
             button := b, pressed := press, monitor := mi.name
             relx := x - mi.x, rely := y - mi.y }] }
  | RawEv.rawKey press code =>
    { st with
        events := st.events ++
          [{ type := EType.Key, ms_since_start := t, keycode := code, pressed := press }] }

/-- Folding the recorder loop over a timestamped raw-input stream from an
arbitrary state. -/
def recordFold (layout : List Output) (stream : List (Int × RawEv)) (st : RecState) : RecState :=
  stream.foldl (fun s p => recordStep layout s p.1 p.2) st

/-- The whole capture loop of `RecorderThread::run` over a stream, from
the initial state. -/
def recordRun (layout : List Output) (stream : List (Int × RawEv)) : RecState :=
  recordFold layout stream initState

/-- The release that the stop path synthesises for a still-held button
`b`: stamped with the stop time `stopT` and the pointer position
`(px, py)` reported by `XQueryPointer` at stop, monitor-resolved like any
other button event. -/
def synthRelease (layout : List Output) (stopT px py : Int) (b : Int) : Event :=
  let mi := findMonitorForPoint layout px py
  { type := EType.MouseButton, ms_since_start := stopT, x := px, y := py, button := b
    pressed := false, monitor := mi.name, relx := px - mi.x, rely := py - mi.y }

/-- The event log of a completed capture run: the events recorded by the
loop followed by one synthetic release per button left in the held set
(`if (!downButtons.empty()) ... for (int b : downButtons)`). -/
def captureRun (layout : List Output) (stream : List (Int × RawEv)) (stopT px py : Int) :
    List Event :=
  (recordRun layout stream).events ++
    (recordRun layout stream).downButtons.map (synthRelease layout stopT px py)

/-- Whether an event is a `MouseButton` event of button `id`. -/
def isBtnEvent (id : Int) (e : Event) : Bool :=
  decide (e.type = EType.MouseButton ∧ e.button = id)

/-- The press/release flags of the `MouseButton` events of button `id`,
in log order. -/
def buttonFlags (id : Int) (log : List Event) : List Bool :=
  (log.filter (isBtnEvent id)).map (fun e => e.pressed)

/-- Number of raw button notifications for button `id` in a stream. -/
def countBtn (id : Int) : List (Int × RawEv) → Nat
  | [] => 0
  | (_, RawEv.rawButton _ b _ _) :: rest => (if b = id then 1 else 0) + countBtn id rest
  | _ :: rest => countBtn id rest

/-- The hypothesis of claim C1 exactly as worded: every button-release
notification is preceded by a matching press of the same button id
(bracket-style matching over a multiset of open presses); no constraint
is placed on presses. -/
def releasesMatched : List Int → List (Int × RawEv) → Bool
  | _, [] => true
  | held, (_, RawEv.rawButton press b _ _) :: rest =>
    if press then releasesMatched (b :: held) rest
    else decide (b ∈ held) && releasesMatched (held.erase b) rest
  | held, _ :: rest => releasesMatched held rest

/-- Well-formed raw stream: presses and releases of each button strictly
alternate — a press arrives only while the button is not held and a
release only while it is held, tracked with the recorder's own held-set
operations. -/
def streamWF : List Int → List (Int × RawEv) → Bool
  | _, [] => true
  | held, (_, RawEv.rawButton press b _ _) :: rest =>
    if press then decide (b ∉ held) && streamWF (insertBtn held b) rest
    else decide (b ∈ held) && streamWF (eraseBtn held b) rest
  | held, _ :: rest => streamWF held rest

/-- Scan step for checking that a press/release flag sequence is a legal
alternation: the state is `none` once the sequence is inconsistent, and
`some d` with `d` the would-be held state otherwise. -/
def altStep (acc : Option Bool) (flag : Bool) : Option Bool :=
  match acc with
  | none => none
  | some down => if flag then (if down then none else some true) else (if down then some false else none)

/-- Held-state after scanning a flag sequence from the released state:
`some false` means the sequence is a complete alternation
press, release, press, release, …, with every press closed. -/
def altState (flags : List Bool) : Option Bool :=
  flags.foldl altStep (some false)

/-- A flag sequence made exclusively of adjacent press/release pairs:
each press immediately matched by the release that follows it. -/
inductive PressReleasePaired : List Bool → Prop
  | nil : PressReleasePaired []
  | pair (rest : List Bool) : PressReleasePaired rest →
      PressReleasePaired (true :: false :: rest)

lemma foldl_altStep_none (l : List Bool) : l.foldl altStep none = none := by
  induction l with
  | nil => rfl
  | cons f l ih => simpa [altStep] using ih

lemma altState_append (l : List Bool) (f : Bool) :
    altState (l ++ [f]) = altStep (altState l) f := by
  simp [altState, List.foldl_append]

lemma altState_parity (l : List Bool) (d0 d : Bool)
    (h : l.foldl altStep (some d0) = some d) :
    (l.length + cond d0 1 0) % 2 = cond d 1 0 := by
  induction l generalizing d0 with
  | nil =>
    simp only [List.foldl_nil, Option.some.injEq] at h
    subst h
    cases d0 <;> decide
  | cons f l ih =>
    cases d0 <;> cases f <;>
      simp only [List.foldl_cons, altStep, if_true, if_false] at h
    · simp [foldl_altStep_none] at h
    · have h2 := ih true h
      cases d <;>
        simp only [List.length_cons, Bool.cond_true, Bool.cond_false] at h2 ⊢ <;> omega
    · have h2 := ih false h
      cases d <;>
        simp only [List.length_cons, Bool.cond_true, Bool.cond_false] at h2 ⊢ <;> omega
    · simp [foldl_altStep_none] at h

lemma even_of_altState (l : List Bool) (h : altState l = some false) :
    l.length % 2 = 0 := by
  have := altState_parity l false false h
  simpa using this

lemma paired_of_altState_aux (n : Nat) :
    ∀ l : List Bool, l.length ≤ n → altState l = some false → PressReleasePaired l := by
  induction n with
  | zero =>
    intro l hl _
    have : l = [] := List.length_eq_zero.mp (Nat.le_zero.mp hl)
    subst this; exact PressReleasePaired.nil
  | succ n ih =>
    intro l hl h
    rcases l with _ | ⟨f1, _ | ⟨f2, rest⟩⟩
    · exact PressReleasePaired.nil
    · cases f1 <;> simp [altState, altStep, foldl_altStep_none] at h
    · cases f1 <;> cases f2 <;>
        simp only [altState, List.foldl_cons, altStep, if_true, if_false] at h
      · exact absurd h (by simp [foldl_altStep_none])
      · exact absurd h (by simp [foldl_altStep_none])
      · refine PressReleasePaired.pair rest (ih rest ?_ h)
        simp only [List.length_cons] at hl; omega
      · exact absurd h (by simp [foldl_altStep_none])

lemma paired_of_altState (l : List Bool) (h : altState l = some false) :
    PressReleasePaired l :=
  paired_of_altState_aux l.length l le_rfl h

lemma buttonFlags_append (id : Int) (l1 l2 : List Event) :
    buttonFlags id (l1 ++ l2) = buttonFlags id l1 ++ buttonFlags id l2 := by
  simp [buttonFlags, List.filter_append]

lemma buttonFlags_single_btn (id : Int) (e : Event)
    (hT : e.type = EType.MouseButton) (hB : e.button = id) :
    buttonFlags id [e] = [e.pressed] := by
  simp [buttonFlags, isBtnEvent, hT, hB]

lemma buttonFlags_single_skip (id : Int) (e : Event)
    (h : ¬(e.type = EType.MouseButton ∧ e.button = id)) :
    buttonFlags id [e] = [] := by
  simp [buttonFlags, isBtnEvent, h]

lemma recordFold_cons (layout : List Output) (t : Int) (ev : RawEv)
    (rest : List (Int × RawEv)) (st : RecState) :
    recordFold layout ((t, ev) :: rest) st
      = recordFold layout rest (recordStep layout st t ev) := rfl

lemma recordStep_motion_downButtons (layout : List Output) (st : RecState) (t x y : Int) :
    (recordStep layout st t (RawEv.rawMotion x y)).downButtons = st.downButtons := by
  simp only [recordStep]
  split <;> rfl

lemma recordStep_motion_flags (layout : List Output) (st : RecState) (t x y id : Int) :
    buttonFlags id (recordStep layout st t (RawEv.rawMotion x y)).events
      = buttonFlags id st.events := by
  simp only [recordStep]
  split
  · rw [buttonFlags_append, buttonFlags_single_skip _ _ (by simp), List.append_nil]
  · rfl

lemma recordStep_key_downButtons (layout : List Output) (st : RecState) (t : Int) (press : Bool)
    (code : Nat) :
    (recordStep layout st t (RawEv.rawKey press code)).downButtons = st.downButtons := rfl

lemma recordStep_key_flags (layout : List Output) (st : RecState) (t : Int) (press : Bool)
    (code : Nat) (id : Int) :
    buttonFlags id (recordStep layout st t (RawEv.rawKey press code)).events
      = buttonFlags id st.events := by
  simp only [recordStep]
  rw [buttonFlags_append, buttonFlags_single_skip _ _ (by simp), List.append_nil]

lemma recordStep_button_downButtons (layout : List Output) (st : RecState) (t : Int)
    (press : Bool) (b x y : Int) :
    (recordStep layout st t (RawEv.rawButton press b x y)).downButtons
      = if press then insertBtn st.downButtons b else eraseBtn st.downButtons b := rfl

lemma recordStep_button_flags_same (layout : List Output) (st : RecState) (t : Int)
    (press : Bool) (b x y : Int) :
    buttonFlags b (recordStep layout st t (RawEv.rawButton press b x y)).events
      = buttonFlags b st.events ++ [press] := by
  simp [recordStep, buttonFlags, isBtnEvent, List.filter_append]

lemma recordStep_button_flags_other (layout : List Output) (st : RecState) (t : Int)
    (press : Bool) (b x y id : Int) (hne : id ≠ b) :
    buttonFlags id (recordStep layout st t (RawEv.rawButton press b x y)).events
      = buttonFlags id st.events := by
  simp only [recordStep]
  rw [buttonFlags_append, buttonFlags_single_skip _ _ (by simp [hne.symm]), List.append_nil]

lemma mem_insertBtn (down : List Int) (b id : Int) :
    id ∈ insertBtn down b ↔ (id ∈ down ∨ id = b) := by
  by_cases hb : b ∈ down
  · simp only [insertBtn, if_pos hb]
    constructor
    · exact Or.inl
    · rintro (h | rfl) <;> [exact h; exact hb]
  · simp [insertBtn, if_neg hb]

lemma mem_eraseBtn (down : List Int) (b id : Int) :
    id ∈ eraseBtn down b ↔ (id ∈ down ∧ id ≠ b) := by
  simp [eraseBtn]

lemma nodup_insertBtn (down : List Int) (b : Int) (h : down.Nodup) :
    (insertBtn down b).Nodup := by
  by_cases hb : b ∈ down
  · simpa [insertBtn, if_pos hb] using h
  · rw [insertBtn, if_neg hb]
    simp [List.nodup_append, h, hb]

lemma nodup_eraseBtn (down : List Int) (b : Int) (h : down.Nodup) :
    (eraseBtn down b).Nodup :=
  h.filter _

/-- Invariant of the capture loop: starting from a state whose per-button
flag history is a legal alternation ending in the held state, a
well-formed raw stream keeps it so, the held set stays duplicate-free,
and each raw button notification for `id` appends exactly one flag. -/
lemma recordFold_inv (layout : List Output) (stream : List (Int × RawEv)) :
    ∀ st : RecState,
      streamWF st.downButtons stream = true →
      st.downButtons.Nodup →
      (∀ id, altState (buttonFlags id st.events) = some (decide (id ∈ st.downButtons))) →
      (recordFold layout stream st).downButtons.Nodup ∧
      ∀ id : Int,
        altState (buttonFlags id (recordFold layout stream st).events)
            = some (decide (id ∈ (recordFold layout stream st).downButtons)) ∧
        (buttonFlags id (recordFold layout stream st).events).length
            = (buttonFlags id st.events).length + countBtn id stream := by
  induction stream with
  | nil =>
    intro st _ hnd hinv
    exact ⟨hnd, fun id => ⟨hinv id, by simp [recordFold, countBtn]⟩⟩
  | cons p rest ih =>
    intro st hwf hnd hinv
    obtain ⟨t, ev⟩ := p
    cases ev with
    | rawMotion x y =>
      rw [recordFold_cons]
      have hwf1 : streamWF (recordStep layout st t (RawEv.rawMotion x y)).downButtons rest
          = true := by
        rw [recordStep_motion_downButtons]
        simpa [streamWF] using hwf
      have hnd1 : (recordStep layout st t (RawEv.rawMotion x y)).downButtons.Nodup := by
        rw [recordStep_motion_downButtons]; exact hnd
      have hinv1 : ∀ id, altState
            (buttonFlags id (recordStep layout st t (RawEv.rawMotion x y)).events)
          = some (decide (id ∈ (recordStep layout st t (RawEv.rawMotion x y)).downButtons)) := by
        intro id
        rw [recordStep_motion_flags, recordStep_motion_downButtons]
        exact hinv id
      obtain ⟨H1, H2⟩ := ih _ hwf1 hnd1 hinv1
      refine ⟨H1, fun id => ⟨(H2 id).1, ?_⟩⟩
      rw [(H2 id).2, recordStep_motion_flags]
      simp [countBtn]
    | rawKey press code =>
      rw [recordFold_cons]
      have hwf1 : streamWF (recordStep layout st t (RawEv.rawKey press code)).downButtons rest
          = true := by
        rw [recordStep_key_downButtons]
        simpa [streamWF] using hwf
      have hnd1 : (recordStep layout st t (RawEv.rawKey press code)).downButtons.Nodup := by
        rw [recordStep_key_downButtons]; exact hnd
      have hinv1 : ∀ id, altState
            (buttonFlags id (recordStep layout st t (RawEv.rawKey press code)).events)
          = some (decide (id ∈ (recordStep layout st t (RawEv.rawKey press code)).downButtons)) := by
        intro id
        rw [recordStep_key_flags, recordStep_key_downButtons]
        exact hinv id
      obtain ⟨H1, H2⟩ := ih _ hwf1 hnd1 hinv1
      refine ⟨H1, fun id => ⟨(H2 id).1, ?_⟩⟩
      rw [(H2 id).2, recordStep_key_flags]
      simp [countBtn]
    | rawButton press b x y =>
      rw [recordFold_cons]
      cases press with
      | true =>
        have hmem : b ∉ st.downButtons := by
          have := hwf
          simp only [streamWF, if_true, Bool.and_eq_true, decide_eq_true_eq] at this
          exact this.1
        have hwfrest : streamWF (insertBtn st.downButtons b) rest = true := by
          have := hwf
          simp only [streamWF, if_true, Bool.and_eq_true, decide_eq_true_eq] at this
          exact this.2
        have hwf1 : streamWF
            (recordStep layout st t (RawEv.rawButton true b x y)).downButtons rest = true := by
          rw [recordStep_button_downButtons]; simpa using hwfrest
        have hnd1 : (recordStep layout st t (RawEv.rawButton true b x y)).downButtons.Nodup := by
          rw [recordStep_button_downButtons]
          simpa using nodup_insertBtn _ _ hnd
        have hinv1 : ∀ id, altState
              (buttonFlags id (recordStep layout st t (RawEv.rawButton true b x y)).events)
            = some (decide
                (id ∈ (recordStep layout st t (RawEv.rawButton true b x y)).downButtons)) := by
          intro id
          rw [recordStep_button_downButtons]
          by_cases hid : id = b
          · subst hid
            rw [recordStep_button_flags_same, altState_append, hinv id]
            simp [altStep, hmem, mem_insertBtn]
          · rw [recordStep_button_flags_other _ _ _ _ _ _ _ _ hid, hinv id]
            simp [mem_insertBtn, hid]
        obtain ⟨H1, H2⟩ := ih _ hwf1 hnd1 hinv1
        refine ⟨H1, fun id => ⟨(H2 id).1, ?_⟩⟩
        rw [(H2 id).2]
        by_cases hid : id = b
        · subst hid
          rw [recordStep_button_flags_same]
          simp [countBtn]
          omega
        · rw [recordStep_button_flags_other _ _ _ _ _ _ _ _ hid]
          simp [countBtn, Ne.symm hid]
      | false =>
        have hmem : b ∈ st.downButtons := by
          have := hwf
          simp only [streamWF, if_false, Bool.and_eq_true, decide_eq_true_eq,
            Bool.false_eq_true] at this
          exact this.1
        have hwfrest : streamWF (eraseBtn st.downButtons b) rest = true := by
          have := hwf
          simp only [streamWF, if_false, Bool.and_eq_true, decide_eq_true_eq,
            Bool.false_eq_true] at this
          exact this.2
        have hwf1 : streamWF
            (recordStep layout st t (RawEv.rawButton false b x y)).downButtons rest = true := by
          rw [recordStep_button_downButtons]; simpa using hwfrest
        have hnd1 : (recordStep layout st t (RawEv.rawButton false b x y)).downButtons.Nodup := by
          rw [recordStep_button_downButtons]
          simpa using nodup_eraseBtn _ _ hnd
        have hinv1 : ∀ id, altState
              (buttonFlags id (recordStep layout st t (RawEv.rawButton false b x y)).events)
            = some (decide
                (id ∈ (recordStep layout st t (RawEv.rawButton false b x y)).downButtons)) := by
          intro id
          rw [recordStep_button_downButtons]
          by_cases hid : id = b
          · subst hid
            rw [recordStep_button_flags_same, altState_append, hinv id]
            simp [altStep, hmem, mem_eraseBtn]
          · rw [recordStep_button_flags_other _ _ _ _ _ _ _ _ hid, hinv id]
            simp [mem_eraseBtn, hid]
        obtain ⟨H1, H2⟩ := ih _ hwf1 hnd1 hinv1
        refine ⟨H1, fun id => ⟨(H2 id).1, ?_⟩⟩
        rw [(H2 id).2]
        by_cases hid : id = b
        · subst hid
          rw [recordStep_button_flags_same]
          simp [countBtn]
          omega
        · rw [recordStep_button_flags_other _ _ _ _ _ _ _ _ hid]
          simp [countBtn, Ne.symm hid]

lemma buttonFlags_cons (id : Int) (e : Event) (l : List Event) :
    buttonFlags id (e :: l)
      = (if e.type = EType.MouseButton ∧ e.button = id then [e.pressed] else [])
          ++ buttonFlags id l := by
  by_cases h : e.type = EType.MouseButton ∧ e.button = id <;>
    simp [buttonFlags, List.filter_cons, isBtnEvent, h]

lemma buttonFlags_synth (layout : List Output) (stopT px py id : Int) :
    ∀ down : List Int, down.Nodup →
      buttonFlags id (down.map (synthRelease layout stopT px py))
        = if id ∈ down then [false] else [] := by
  intro down
  induction down with
  | nil => intro _; simp [buttonFlags]
  | cons d ds ih =>
    intro hnd
    obtain ⟨hd, hnd2⟩ := List.nodup_cons.mp hnd
    rw [List.map_cons, buttonFlags_cons, ih hnd2]
    by_cases hid : id = d
    · subst hid
      rw [if_pos (by exact ⟨rfl, rfl⟩), if_neg hd, if_pos (List.mem_cons_self id ds)]
      simp [synthRelease]
    · rw [if_neg (by simp [synthRelease, Ne.symm hid])]
      simp [List.mem_cons, hid]

/-- Claim C1, amended: over every raw input stream in which presses and
releases of each button strictly alternate (`streamWF`), the completed
capture log has, per button id, a press/release flag sequence made of
adjacent press-then-matching-release pairs, hence of even length, and of
positive length for every id that occurs in the stream; the releases
synthesized at stop are `MouseButton` releases stamped with the stop time
and the last known pointer position, appended after the recorded events. -/
theorem C1_capture_button_events_pair_up (layout : List Output)
    (stream : List (Int × RawEv)) (stopT px py id : Int)
    (hWF : streamWF [] stream = true) :
    PressReleasePaired (buttonFlags id (captureRun layout stream stopT px py))
    ∧ (buttonFlags id (captureRun layout stream stopT px py)).length % 2 = 0
    ∧ (0 < countBtn id stream →
        0 < (buttonFlags id (captureRun layout stream stopT px py)).length)
    ∧ (∀ e ∈ (recordRun layout stream).downButtons.map (synthRelease layout stopT px py),
        e.ms_since_start = stopT ∧ e.x = px ∧ e.y = py ∧ e.pressed = false
          ∧ e.type = EType.MouseButton)
    ∧ captureRun layout stream stopT px py
        = (recordRun layout stream).events
            ++ (recordRun layout stream).downButtons.map (synthRelease layout stopT px py) := by
  have hbase : ∀ i : Int, altState (buttonFlags i initState.events)
      = some (decide (i ∈ initState.downButtons)) := by
    intro i; simp [initState, buttonFlags, altState]
  obtain ⟨Hnd, Hinv⟩ := recordFold_inv layout stream initState
    (by simpa [initState] using hWF) (by simp [initState]) hbase
  have hrun : recordRun layout stream = recordFold layout stream initState := rfl
  have hflags : buttonFlags id (captureRun layout stream stopT px py)
      = buttonFlags id (recordRun layout stream).events
        ++ (if id ∈ (recordRun layout stream).downButtons then [false] else []) := by
    rw [captureRun, buttonFlags_append,
      buttonFlags_synth layout stopT px py id _ (by rw [hrun]; exact Hnd)]
  have halt : altState (buttonFlags id (captureRun layout stream stopT px py)) = some false := by
    rw [hflags]
    by_cases hmem : id ∈ (recordRun layout stream).downButtons
    · rw [if_pos hmem, altState_append]
      rw [hrun] at hmem ⊢
      rw [(Hinv id).1]
      simp [altStep, hmem]
    · rw [if_neg hmem, List.append_nil]
      rw [hrun] at hmem ⊢
      rw [(Hinv id).1]
      simp [hmem]
  refine ⟨paired_of_altState _ halt, even_of_altState _ halt, ?_, ?_, rfl⟩
  · intro hcount
    have hlen : (buttonFlags id (recordFold layout stream initState).events).length
        = (buttonFlags id initState.events).length + countBtn id stream := (Hinv id).2
    have hlen0 : (buttonFlags id initState.events).length = 0 := by
      simp [initState, buttonFlags]
    rw [hflags, List.length_append, hrun, hlen, hlen0]
    omega
  · intro e he
    obtain ⟨b, _, rfl⟩ := List.mem_map.mp he
    simp [synthRelease]

/-- A well-formed capture stream: press 1, move, press 2, release 1, a
key press, then stop at t = 30 with the pointer at (7, 8); button 2 is
still held at stop, so a release for it is synthesized. -/
def wStream : List (Int × RawEv) :=
  [(0, RawEv.rawButton true 1 5 5), (3, RawEv.rawMotion 6 6), (10, RawEv.rawButton true 2 6 6),
   (20, RawEv.rawButton false 1 6 6), (25, RawEv.rawKey true 38)]

/-- Witness for the amended claim C1 at the concrete stream `wStream`,
button id 2 (held at stop, closed by the synthesized release). -/
theorem C1_witness :
    streamWF [] wStream = true
    ∧ (PressReleasePaired (buttonFlags 2 (captureRun [] wStream 30 7 8))
      ∧ (buttonFlags 2 (captureRun [] wStream 30 7 8)).length % 2 = 0
      ∧ (0 < countBtn 2 wStream →
          0 < (buttonFlags 2 (captureRun [] wStream 30 7 8)).length)
      ∧ (∀ e ∈ (recordRun [] wStream).downButtons.map (synthRelease [] 30 7 8),
          e.ms_since_start = 30 ∧ e.x = 7 ∧ e.y = 8 ∧ e.pressed = false
            ∧ e.type = EType.MouseButton)
      ∧ captureRun [] wStream 30 7 8
          = (recordRun [] wStream).events
              ++ (recordRun [] wStream).downButtons.map (synthRelease [] 30 7 8)) :=
  ⟨by decide, C1_capture_button_events_pair_up [] wStream 30 7 8 2 (by decide)⟩

/-- A raw stream that satisfies claim C1's hypothesis as literally worded
(every release is preceded by a matching press of the same button) but
contains a second press of an already-held button. -/
def cStream : List (Int × RawEv) :=
  [(0, RawEv.rawButton true 1 0 0), (5, RawEv.rawButton true 1 0 0),
   (9, RawEv.rawButton false 1 0 0)]

/-- Counterexample to claim C1 as stated: `cStream` satisfies the
claim's hypothesis (`releasesMatched`), yet the completed capture log
contains three `MouseButton` events for button 1 — an odd count, so the
promised positive even alternation fails.  The `unordered_set` insert of
an already-held button is a no-op, so no release is owed at stop, while
the duplicate press event is still appended to the log. -/
theorem C1_counterexample :
    releasesMatched [] cStream = true
    ∧ (buttonFlags 1 (captureRun [] cStream 9 0 0)).length % 2 = 1 := by decide

/-! ## Playback engine (`PlayerThread::run`) -/

/-- One event handed to the X server by the player: `XTestFakeMotionEvent`,
`XTestFakeButtonEvent` or `XTestFakeKeyEvent`. -/
inductive Inj
  | motion (x y : Int)
  | buttonInj (button : Int) (press : Bool)
  | keyInj (code : Nat) (press : Bool)
deriving DecidableEq

/-- The absolute position the player computes for a mouse event: start
from the recorded `e.x`/`e.y`, and overwrite with
`monitor origin + relative offset` only when the event names a monitor
and `findMonitorByName` resolves it in the current layout. -/
def resolveAbs (layout : List Output) (e : Event) : Int × Int :=
  if e.monitor ≠ "" then
    let mi := findMonitorByName layout e.monitor
    if mi.name ≠ "" then (mi.x + e.relx, mi.y + e.rely) else (e.x, e.y)
  else (e.x, e.y)

/-- Whether the lookahead event is the release of the same button, as
tested by the tap-shaping branch (`next.type == Event::MouseButton &&
next.button == e.button && !next.pressed`). -/
def nextIsReleaseOf (e : Event) (next : Option Event) : Bool :=
  match next with
  | some nx => decide (nx.type = EType.MouseButton ∧ nx.button = e.button ∧ nx.pressed = false)
  | none => false

/-- The injections produced for one event of the log, given the lookahead
event `next`: a motion for `MouseMove`; for `MouseButton` a preceding
motion only when the monitor resolves, then the button event, then — for
a press with no immediately following release of the same button — the
automatic release of `auto_release`; a key event for `Key`. -/
def dispatchEvent (layout : List Output) (e : Event) (next : Option Event) : List Inj :=
  match e.type with
  | EType.MouseMove =>
    let p := resolveAbs layout e
    [Inj.motion p.1 p.2]
  | EType.MouseButton =>
    let pre : List Inj :=
      if e.monitor ≠ "" then
        let mi := findMonitorByName layout e.monitor
        if mi.name ≠ "" then [Inj.motion (mi.x + e.relx) (mi.y + e.rely)] else []
      else []
    let tail : List Inj :=
      if e.pressed then
        if nextIsReleaseOf e next then [] else [Inj.buttonInj e.button false]
      else []
    pre ++ [Inj.buttonInj e.button e.pressed] ++ tail
  | EType.Key => [Inj.keyInj e.keycode e.pressed]

/-- `(int64_t)(q)` for a `double` quotient: truncation toward zero,
modelled over `ℚ`. -/
def truncToInt (q : ℚ) : Int :=
  if 0 ≤ q.num then q.num / (q.den : Int) else -((-q.num) / (q.den : Int))

/-- The millisecond offset the player schedules for an event:
`(std::int64_t)(e.ms_since_start / speed)`. -/
def scheduleOffset (t : Int) (speed : ℚ) : Int :=
  truncToInt ((t : ℚ) / speed)

/-- Time the player sleeps after dispatching an event before looking at
the next one: the 30 ms `auto_release` click for an unmatched press, the
15 ms visible-tap sleep for a matched press, nothing otherwise. -/
def postDelay (e : Event) (next : Option Event) : Int :=
  if e.type = EType.MouseButton ∧ e.pressed = true then
    (if nextIsReleaseOf e next then 15 else 30)
  else 0

/-- Dispatch instants of one playback pass in an idealised clock model:
`nanosleep` wakes exactly at the target instant
`T0 + scheduleOffset` when that is in the future, injections are
instantaneous, and the tap-shaping sleeps advance the clock by
`postDelay`. -/
def fireTimes (speed : ℚ) (T0 : Int) : List Event → Int → List Int
  | [], _ => []
  | e :: rest, now =>
    let target := T0 + scheduleOffset e.ms_since_start speed
    let fire := max now target
    fire :: fireTimes speed T0 rest (fire + postDelay e rest.head?)

/-- The cooperative stop flag of the player, modelled as an optional
budget: `none` means no stop request ever arrives; `some n` means the
`running` flag reads `false` once `n` further events have been
dispatched. -/
def cancelled : Option Nat → Bool
  | none => false
  | some n => decide (n = 0)

/-- Budget left after dispatching one event. -/
def tick : Option Nat → Option Nat
  | none => none
  | some n => some (n - 1)

/-- The inner loop of `PlayerThread::run` over one pass of the log,
checking `running` before each event; returns the per-event dispatch
lists and the remaining budget. -/
def playPass (layout : List Output) : List Event → Option Nat → (List (List Inj) × Option Nat)
  | [], b => ([], b)
  | e :: rest, b =>
    if cancelled b then ([], b)
    else
      let r := playPass layout rest (tick b)
      (dispatchEvent layout e rest.head? :: r.1, r.2)

/-- The outer `for (int k = 0; k < loops && running; ++k)` loop. -/
def playLoops (layout : List Output) (events : List Event) : Nat → Option Nat → List (List Inj)
  | 0, _ => []
  | k + 1, b =>
    if cancelled b then []
    else
      let r := playPass layout events b
      r.1 ++ playLoops layout events k r.2

/-- One uncancelled pass over the log, each event dispatched with its
lookahead, in log order. -/
def passDispatches (layout : List Output) : List Event → List (List Inj)
  | [] => []
  | e :: rest => dispatchEvent layout e rest.head? :: passDispatches layout rest

/-- `INT_MAX`, the loop count `MainWindow::onTogglePlay` installs when
the "Infinite loop" checkbox is ticked
(`chkInfinite->isChecked() ? INT_MAX : spinLoops->value()`). -/
def INT_MAX : Nat := 2147483647

/-- The loop count handed to the player by the UI. -/
def loopsForUI (infiniteChecked : Bool) (spinValue : Nat) : Nat :=
  if infiniteChecked then INT_MAX else spinValue

/-- The event dispatches of a whole `PlayerThread::run`: nothing if the
log is empty (`"No events to play"`), otherwise the loop passes until the
loop count or the stop budget is exhausted.  The unconditional safety
releases of buttons 1–7 at the end are not event dispatches and are not
part of this list. -/
def playerRun (layout : List Output) (events : List Event) (loops : Nat) (budget : Option Nat) :
    List (List Inj) :=
  if events.isEmpty then [] else playLoops layout events loops budget

/-- Claim C2: when an event names a monitor that `findMonitorByName`
resolves in the current layout, the injected absolute position is the
resolved monitor's origin plus the stored relative offset, and a
`MouseButton` event is preceded by a motion injection to that position;
otherwise the recorded absolute coordinates are used verbatim (the
motion for a `MouseMove` goes to them, a `MouseButton` is injected with
no preceding motion) and dispatch still produces a well-defined
injection list. -/
theorem C2_dispatch_position_resolution (layout : List Output) (e : Event) (next : Option Event) :
    ((e.monitor ≠ "" ∧ (findMonitorByName layout e.monitor).name ≠ "") →
      (resolveAbs layout e
          = ((findMonitorByName layout e.monitor).x + e.relx,
             (findMonitorByName layout e.monitor).y + e.rely)
        ∧ (e.type = EType.MouseMove →
            dispatchEvent layout e next
              = [Inj.motion ((findMonitorByName layout e.monitor).x + e.relx)
                  ((findMonitorByName layout e.monitor).y + e.rely)])
        ∧ (e.type = EType.MouseButton →
            ∃ rest, dispatchEvent layout e next
              = Inj.motion ((findMonitorByName layout e.monitor).x + e.relx)
                  ((findMonitorByName layout e.monitor).y + e.rely)
                :: Inj.buttonInj e.button e.pressed :: rest)))
    ∧ ((e.monitor = "" ∨ (findMonitorByName layout e.monitor).name = "") →
        (resolveAbs layout e = (e.x, e.y)
        ∧ (e.type = EType.MouseMove → dispatchEvent layout e next = [Inj.motion e.x e.y])
        ∧ (e.type = EType.MouseButton →
            ∃ rest, dispatchEvent layout e next
              = Inj.buttonInj e.button e.pressed :: rest))) := by
  constructor
  · rintro ⟨hm, hr⟩
    refine ⟨by simp [resolveAbs, hm, hr], ?_, ?_⟩
    · intro ht; simp [dispatchEvent, ht, resolveAbs, hm, hr]
    · intro ht
      refine ⟨(if e.pressed then
          (if nextIsReleaseOf e next then [] else [Inj.buttonInj e.button false]) else []), ?_⟩
      simp [dispatchEvent, ht, hm, hr]
  · intro hcase
    have habs : resolveAbs layout e = (e.x, e.y) := by
      rcases hcase with h | h
      · simp [resolveAbs, h]
      · by_cases hm : e.monitor = ""
        · simp [resolveAbs, hm]
        · simp [resolveAbs, hm, h]
    refine ⟨habs, ?_, ?_⟩
    · intro ht; simp [dispatchEvent, ht, habs]
    · intro ht
      refine ⟨(if e.pressed then
          (if nextIsReleaseOf e next then [] else [Inj.buttonInj e.button false]) else []), ?_⟩
      rcases hcase with h | h
      · simp [dispatchEvent, ht, h]
      · by_cases hm : e.monitor = ""
        · simp [dispatchEvent, ht, hm]
        · simp [dispatchEvent, ht, hm, h]

/-- A one-output layout and a recorded move on the output named
"HDMI-1", used to witness C2 in the resolved case. -/
def wOut : Output :=
  { name := "HDMI-1", connected := true, hasCrtc := true, x := 1920, y := 0
    width := 1280, height := 1024 }

def wMoveEv : Event :=
  { type := EType.MouseMove, ms_since_start := 40, x := 100, y := 100
    monitor := "HDMI-1", relx := 10, rely := 20 }

/-- Witness for C2: the monitor of `wMoveEv` resolves in `[wOut]`, and
the dispatched motion goes to the resolved origin plus the relative
offset. -/
theorem C2_witness :
    (wMoveEv.monitor ≠ "" ∧ (findMonitorByName [wOut] wMoveEv.monitor).name ≠ "")
    ∧ dispatchEvent [wOut] wMoveEv none
        = [Inj.motion ((findMonitorByName [wOut] wMoveEv.monitor).x + wMoveEv.relx)
            ((findMonitorByName [wOut] wMoveEv.monitor).y + wMoveEv.rely)] :=
  ⟨by decide, ((C2_dispatch_position_resolution [wOut] wMoveEv none).1 (by decide)).2.1 rfl⟩

lemma fireTimes_ge (speed : ℚ) (T0 : Int) :
    ∀ (events : List Event) (now : Int) (i : Nat), i < events.length →
      T0 + scheduleOffset ((events.getD i default).ms_since_start) speed
        ≤ (fireTimes speed T0 events now).getD i 0 := by
  intro events
  induction events with
  | nil => intro now i hi; simp at hi
  | cons e rest ih =>
    intro now i hi
    cases i with
    | zero =>
      simp only [fireTimes, List.getD_cons_zero]
      exact le_max_right _ _
    | succ n =>
      simp only [fireTimes, List.getD_cons_succ]
      exact ih _ n (by simpa using hi)

/-- Claim C3, amended: the player schedules each event at the truncated
millisecond offset `(int64)(t / speed)` after the loop-start instant
`T0`, and in the idealised clock model never injects it before
`T0 + (int64)(t / speed)` (for the exactly representable offsets of the
claim — t ∈ {0,100,300} at speed 1.0, and t = 300 at speed 2.0 giving
offset 150 — this coincides with `T0 + t/speed`). -/
theorem C3_playback_schedule (speed : ℚ) (T0 : Int) (events : List Event) (i : Nat)
    (hi : i < events.length) :
    T0 + scheduleOffset ((events.getD i default).ms_since_start) speed
      ≤ (fireTimes speed T0 events T0).getD i 0 :=
  fireTimes_ge speed T0 events T0 i hi

/-- Log with events at t = 0, 100 and 300 ms, as in the claim. -/
def wLog3 : List Event :=
  [{ type := EType.MouseMove, ms_since_start := 0, x := 1, y := 1 },
   { type := EType.Key, ms_since_start := 100, keycode := 38, pressed := true },
   { type := EType.Key, ms_since_start := 300, keycode := 38, pressed := false }]

/-- Witness for C3: at speed 1.0 the second and third injections fire no
earlier than T0 + 100 and T0 + 300; at speed 2.0 the t = 300 event is
scheduled at offset 150. -/
theorem C3_witness :
    (1 < wLog3.length ∧ 2 < wLog3.length)
    ∧ scheduleOffset 100 1 = 100 ∧ scheduleOffset 300 1 = 300 ∧ scheduleOffset 300 2 = 150
    ∧ 1000 + scheduleOffset ((wLog3.getD 1 default).ms_since_start) 1
        ≤ (fireTimes 1 1000 wLog3 1000).getD 1 0
    ∧ 1000 + scheduleOffset ((wLog3.getD 2 default).ms_since_start) 1
        ≤ (fireTimes 1 1000 wLog3 1000).getD 2 0 :=
  ⟨⟨by decide, by decide⟩, by norm_num [scheduleOffset, truncToInt],
   by norm_num [scheduleOffset, truncToInt], by norm_num [scheduleOffset, truncToInt],
   C3_playback_schedule 1 1000 wLog3 1 (by decide),
   C3_playback_schedule 1 1000 wLog3 2 (by decide)⟩

def evHalf : Event := { type := EType.Key, ms_since_start := 1, keycode := 10, pressed := true }

/-- Counterexample to claim C3 as stated: at speed 2.0 an event with
t = 1 ms is scheduled at offset `(int64)(1 / 2.0) = 0` and is injected at
the loop start `T0 = 0` itself, although `T0 + t/s = 1/2 > 0`; the code
truncates scheduled offsets to whole milliseconds, so an event can fire
strictly before `T0 + t/s`. -/
theorem C3_counterexample :
    (fireTimes 2 0 [evHalf] 0).getD 0 0 = 0 ∧ ((0 : ℚ) < (1 : ℚ) / 2) := by
  refine ⟨?_, by norm_num⟩
  simp only [fireTimes, List.getD_cons_zero, evHalf]
  norm_num [scheduleOffset, truncToInt]

lemma playPass_none (layout : List Output) :
    ∀ events : List Event, playPass layout events none = (passDispatches layout events, none) := by
  intro events
  induction events with
  | nil => rfl
  | cons e rest ih => simp [playPass, passDispatches, cancelled, tick, ih]

lemma passDispatches_length (layout : List Output) (events : List Event) :
    (passDispatches layout events).length = events.length := by
  induction events with
  | nil => rfl
  | cons e rest ih => simp [passDispatches, ih]

lemma playLoops_succ (layout : List Output) (events : List Event) (k : Nat) (b : Option Nat) :
    playLoops layout events (k + 1) b
      = if cancelled b then []
        else (playPass layout events b).1 ++ playLoops layout events k (playPass layout events b).2
    := rfl

lemma playLoops_none_eq (layout : List Output) (events : List Event) :
    ∀ k : Nat, playLoops layout events k none
      = (List.replicate k (passDispatches layout events)).flatten := by
  intro k
  induction k with
  | zero => rfl
  | succ k ih =>
    rw [playLoops_succ, playPass_none]
    simp [cancelled, List.replicate_succ, ih]

lemma playLoops_none_length (layout : List Output) (events : List Event) (k : Nat) :
    (playLoops layout events k none).length = k * events.length := by
  induction k with
  | zero => simp [playLoops]
  | succ k ih =>
    rw [playLoops_succ, playPass_none]
    simp only [cancelled, Bool.false_eq_true, if_false, List.length_append, ih]
    rw [passDispatches_length, Nat.succ_mul]
    omega

lemma playPass_some (layout : List Output) :
    ∀ (events : List Event) (c : Nat),
      (playPass layout events (some c)).1.length = min c events.length
      ∧ (playPass layout events (some c)).2 = some (c - events.length) := by
  intro events
  induction events with
  | nil => intro c; simp [playPass]
  | cons e rest ih =>
    intro c
    cases c with
    | zero => simp [playPass, cancelled]
    | succ n =>
      have h := ih n
      simp only [playPass, cancelled, decide_eq_true_eq, Nat.succ_ne_zero, if_false, tick,
        Nat.add_sub_cancel, List.length_cons]
      exact ⟨by rw [h.1]; omega, by rw [h.2]; congr 1; omega⟩

lemma playLoops_some_length (layout : List Output) (events : List Event) :
    ∀ (k : Nat) (c : Nat),
      (playLoops layout events k (some c)).length = min c (k * events.length) := by
  intro k
  induction k with
  | zero => intro c; simp [playLoops]
  | succ k ih =>
    intro c
    rw [playLoops_succ]
    by_cases hc : c = 0
    · subst hc; simp [cancelled]
    · rw [if_neg (by simp [cancelled, hc])]
      rw [List.length_append, (playPass_some layout events c).1,
        (playPass_some layout events c).2, ih (c - events.length), Nat.succ_mul]
      have := events.length
      omega

/-- Claim C4, amended: for a non-empty log played without a stop
request, loops = 3 yields exactly three complete passes in log order
(3·n event dispatches); the "infinite" checkbox actually installs
`INT_MAX = 2147483647` as the loop count, so without a stop request the
run still terminates after `INT_MAX · n` dispatches, and a stop request
that arrives after `c` dispatches truncates the run to `c` dispatches. -/
theorem C4_loop_count (layout : List Output) (events : List Event) (spin c : Nat)
    (h : events ≠ []) :
    playerRun layout events 3 none
      = passDispatches layout events ++ passDispatches layout events
          ++ passDispatches layout events
    ∧ (playerRun layout events 3 none).length = 3 * events.length
    ∧ (passDispatches layout events).length = events.length
    ∧ (playerRun layout events (loopsForUI true spin) none).length = INT_MAX * events.length
    ∧ (playerRun layout events (loopsForUI true spin) (some c)).length
        = min c (INT_MAX * events.length) := by
  have hne : events.isEmpty = false := by
    cases events with
    | nil => exact absurd rfl h
    | cons a l => rfl
  have hrun : ∀ (loops : Nat) (b : Option Nat),
      playerRun layout events loops b = playLoops layout events loops b := by
    intro loops b; simp [playerRun, hne]
  refine ⟨?_, ?_, passDispatches_length layout events, ?_, ?_⟩
  · rw [hrun, playLoops_none_eq]
    simp
  · rw [hrun, playLoops_none_length]
  · rw [hrun, loopsForUI, if_pos rfl, playLoops_none_length]
  · rw [hrun, loopsForUI, if_pos rfl, playLoops_some_length]

/-- Two-event log used to witness C4. -/
def wLog2 : List Event :=
  [{ type := EType.MouseMove, ms_since_start := 0, x := 1, y := 2 },
   { type := EType.Key, ms_since_start := 50, keycode := 24, pressed := true }]

/-- Witness for C4 on a concrete 2-event log (6 dispatches for loops = 3,
and the INT_MAX behaviour of the "infinite" setting). -/
theorem C4_witness :
    wLog2 ≠ []
    ∧ (playerRun [] wLog2 3 none
        = passDispatches [] wLog2 ++ passDispatches [] wLog2 ++ passDispatches [] wLog2
      ∧ (playerRun [] wLog2 3 none).length = 3 * wLog2.length
      ∧ (passDispatches [] wLog2).length = wLog2.length
      ∧ (playerRun [] wLog2 (loopsForUI true 7) none).length = INT_MAX * wLog2.length
      ∧ (playerRun [] wLog2 (loopsForUI true 7) (some 5)).length
          = min 5 (INT_MAX * wLog2.length)) :=
  ⟨by decide, C4_loop_count [] wLog2 7 5 (by decide)⟩

/-- Counterexample to claim C4 as stated: with the "infinite" loop
setting and no stop request ever arriving, playback of a one-event log
does not continue until a stop request — it terminates after exactly
`INT_MAX = 2147483647` passes, i.e. finitely many dispatches. -/
theorem C4_counterexample :
    (playerRun [] [evHalf] (loopsForUI true 1) none).length = 2147483647 := by
  have h : playerRun [] [evHalf] (loopsForUI true 1) none
      = playLoops [] [evHalf] INT_MAX none := by
    simp [playerRun, loopsForUI]
  rw [h, playLoops_none_length]
  rfl

/-! ## The .recq serializer (`MainWindow::saveRecq` / `MainWindow::loadRecq`) -/

/-- One per-event JSON record of the persisted macro file.  Each field
carries the value that `QJsonObject::value(key).toXxx()` returns for it,
with the Qt defaults (`0`, `false`, empty string) standing for an absent
or type-mismatched key — exactly what the loader observes. -/
structure JRec where
  t : Int := 0
  rtype : String := ""
  x : Int := 0
  y : Int := 0
  btn : Int := 0
  down : Bool := false
  code : Int := 0
deriving DecidableEq

instance : Inhabited JRec := ⟨{}⟩

/-- The C++ cast `(int)keycode` from `unsigned int`: reduce modulo 2^32
and reinterpret as a signed 32-bit value. -/
def kcToInt (k : Nat) : Int :=
  if k % 4294967296 < 2147483648 then ((k % 4294967296 : Nat) : Int)
  else ((k % 4294967296 : Nat) : Int) - 4294967296

/-- The C++ conversion `(unsigned int)i` from `int`: value modulo 2^32. -/
def intToKc (i : Int) : Nat := (i % 4294967296).toNat

/-- `saveRecq`, per event: `t` always; `type`/`x`/`y` for `mm`;
`type`/`x`/`y`/`btn`/`down` for `mb`; `type`/`code`/`down` otherwise
(`key`).  Unwritten fields stay at the Qt defaults. -/
def saveEvent (e : Event) : JRec :=
  if e.type = EType.MouseMove then
    { t := e.ms_since_start, rtype := "mm", x := e.x, y := e.y }
  else if e.type = EType.MouseButton then
    { t := e.ms_since_start, rtype := "mb", x := e.x, y := e.y, btn := e.button, down := e.pressed }
  else
    { t := e.ms_since_start, rtype := "key", code := kcToInt e.keycode, down := e.pressed }

/-- The per-record body of `loadRecq`'s object branch: `Event e{}` is
zero-initialised (so its type tag is `MouseMove`), `t` is always read,
and the `mm`/`mb`/`key` cases fill their fields; for any other `type`
string the zero-initialised event with only `t` set is still pushed. -/
def loadRecObjBranch (r : JRec) : Event :=
  let e : Event := { ms_since_start := r.t }
  if r.rtype = "mm" then
    { e with type := EType.MouseMove, x := r.x, y := r.y }
  else if r.rtype = "mb" then
    { e with type := EType.MouseButton, x := r.x, y := r.y, button := r.btn, pressed := r.down }
  else if r.rtype = "key" then
    { e with type := EType.Key, keycode := intToKc r.code, pressed := r.down }
  else e

/-- The per-record body of `loadRecq`'s legacy bare-array branch — the
source duplicates the object-branch code verbatim. -/
def loadRecArrBranch (r : JRec) : Event :=
  let e : Event := { ms_since_start := r.t }
  if r.rtype = "mm" then
    { e with type := EType.MouseMove, x := r.x, y := r.y }
  else if r.rtype = "mb" then
    { e with type := EType.MouseButton, x := r.x, y := r.y, button := r.btn, pressed := r.down }
  else if r.rtype = "key" then
    { e with type := EType.Key, keycode := intToKc r.code, pressed := r.down }
  else e

/-- A parsed .recq JSON document: the wrapped object form
(`{format, events}`), the legacy bare array, or anything else
(`QJsonDocument` neither object nor array). -/
inductive RecqDoc
  | objDoc (format : String) (events : List JRec)
  | arrDoc (records : List JRec)
  | otherDoc
deriving DecidableEq

/-- `loadRecq` on a parsed document.  The `format` field is read but not
enforced in the source (the startsWith check is commented out), so the
object branch ignores it. -/
def loadRecq : RecqDoc → List Event
  | RecqDoc.objDoc _ evs => evs.map loadRecObjBranch
  | RecqDoc.arrDoc rs => rs.map loadRecArrBranch
  | RecqDoc.otherDoc => []

/-- `saveRecq`: the wrapped object document with format marker
`"recq-v1"`. -/
def saveRecq (log : List Event) : RecqDoc :=
  RecqDoc.objDoc "recq-v1" (log.map saveEvent)

lemma intToKc_kcToInt (k : Nat) (hk : k < 4294967296) : intToKc (kcToInt k) = k := by
  rw [kcToInt, Nat.mod_eq_of_lt hk]
  by_cases h : k < 2147483648
  · rw [if_pos h, intToKc]
    omega
  · rw [if_neg h, intToKc]
    omega

lemma getD_map_lt {α β : Type} [Inhabited α] [Inhabited β] (f : α → β) :
    ∀ (l : List α) (i : Nat), i < l.length → (l.map f).getD i default = f (l.getD i default) := by
  intro l
  induction l with
  | nil => intro i hi; simp at hi
  | cons a rest ih =>
    intro i hi
    cases i with
    | zero => simp
    | succ n =>
      simp only [List.map_cons, List.getD_cons_succ]
      exact ih n (by simpa using hi)

lemma loadRec_saveEvent_mm (e : Event) (he : e.type = EType.MouseMove) :
    loadRecObjBranch (saveEvent e)
      = { type := EType.MouseMove, ms_since_start := e.ms_since_start, x := e.x, y := e.y } := by
  simp [saveEvent, loadRecObjBranch, he]

lemma loadRec_saveEvent_mb (e : Event) (he : e.type = EType.MouseButton) :
    loadRecObjBranch (saveEvent e)
      = { type := EType.MouseButton, ms_since_start := e.ms_since_start, x := e.x, y := e.y
          button := e.button, pressed := e.pressed } := by
  simp [saveEvent, loadRecObjBranch, he]

lemma loadRec_saveEvent_key (e : Event) (he : e.type = EType.Key) (hk : e.keycode < 4294967296) :
    loadRecObjBranch (saveEvent e)
      = { type := EType.Key, ms_since_start := e.ms_since_start, keycode := e.keycode
          pressed := e.pressed } := by
  simp [saveEvent, loadRecObjBranch, he, intToKc_kcToInt e.keycode hk]

/-- Claim C5: loading the saved form of any log preserves its length and,
per event, the type tag, the timestamp, and the type-relevant payload
(absolute x/y for mouse variants, button id and press flag for
`MouseButton`, keycode and press flag for `Key`), while the monitor name
and relative coordinates come back empty/zero.  The keycode hypothesis
reflects the 32-bit `unsigned` member; the timestamp bound reflects the
exactness range of the JSON double (both hold for every program-produced
log). -/
theorem C5_save_load_roundtrip (log : List Event)
    (hk : ∀ e ∈ log, e.keycode < 4294967296)
    (_ht : ∀ e ∈ log, e.ms_since_start.natAbs < 9007199254740992) :
    (loadRecq (saveRecq log)).length = log.length
    ∧ ∀ i : Nat, i < log.length →
        ((loadRecq (saveRecq log)).getD i default).type = (log.getD i default).type
        ∧ ((loadRecq (saveRecq log)).getD i default).ms_since_start
            = (log.getD i default).ms_since_start
        ∧ ((log.getD i default).type = EType.MouseMove →
            ((loadRecq (saveRecq log)).getD i default).x = (log.getD i default).x
            ∧ ((loadRecq (saveRecq log)).getD i default).y = (log.getD i default).y)
        ∧ ((log.getD i default).type = EType.MouseButton →
            ((loadRecq (saveRecq log)).getD i default).x = (log.getD i default).x
            ∧ ((loadRecq (saveRecq log)).getD i default).y = (log.getD i default).y
            ∧ ((loadRecq (saveRecq log)).getD i default).button = (log.getD i default).button
            ∧ ((loadRecq (saveRecq log)).getD i default).pressed = (log.getD i default).pressed)
        ∧ ((log.getD i default).type = EType.Key →
            ((loadRecq (saveRecq log)).getD i default).keycode = (log.getD i default).keycode
            ∧ ((loadRecq (saveRecq log)).getD i default).pressed = (log.getD i default).pressed)
        ∧ ((loadRecq (saveRecq log)).getD i default).monitor = ""
        ∧ ((loadRecq (saveRecq log)).getD i default).relx = 0
        ∧ ((loadRecq (saveRecq log)).getD i default).rely = 0 := by
  constructor
  · simp [loadRecq, saveRecq]
  · intro i hi
    have hload : loadRecq (saveRecq log) = log.map (fun e => loadRecObjBranch (saveEvent e)) := by
      simp [loadRecq, saveRecq]
    have hget : (loadRecq (saveRecq log)).getD i default
        = loadRecObjBranch (saveEvent (log.getD i default)) :=
      hload ▸ getD_map_lt (fun e => loadRecObjBranch (saveEvent e)) log i hi
    have hkmem : (log.getD i default).keycode < 4294967296 := by
      have hmem : log.getD i default ∈ log := by
        rw [List.getD_eq_getElem?_getD]
        have hsome : log[i]? = some log[i] := List.getElem?_eq_getElem hi
        rw [hsome]
        simp only [Option.getD_some]
        exact List.getElem_mem hi
      exact hk _ hmem
    rw [hget]
    cases hty : (log.getD i default).type
    · rw [loadRec_saveEvent_mm _ hty]
      simp [hty]
    · rw [loadRec_saveEvent_mb _ hty]
      simp [hty]
    · rw [loadRec_saveEvent_key _ hty hkmem]
      simp [hty]

/-- Witness for C5: a three-event log, one event of each type, with the
keycode and timestamp bounds discharged by computation. -/
theorem C5_witness :
    ((∀ e ∈ wLog3, e.keycode < 4294967296)
      ∧ (∀ e ∈ wLog3, e.ms_since_start.natAbs < 9007199254740992))
    ∧ ((loadRecq (saveRecq wLog3)).length = wLog3.length
      ∧ ∀ i : Nat, i < wLog3.length →
        ((loadRecq (saveRecq wLog3)).getD i default).type = (wLog3.getD i default).type
        ∧ ((loadRecq (saveRecq wLog3)).getD i default).ms_since_start
            = (wLog3.getD i default).ms_since_start
        ∧ ((wLog3.getD i default).type = EType.MouseMove →
            ((loadRecq (saveRecq wLog3)).getD i default).x = (wLog3.getD i default).x
            ∧ ((loadRecq (saveRecq wLog3)).getD i default).y = (wLog3.getD i default).y)
        ∧ ((wLog3.getD i default).type = EType.MouseButton →
            ((loadRecq (saveRecq wLog3)).getD i default).x = (wLog3.getD i default).x
            ∧ ((loadRecq (saveRecq wLog3)).getD i default).y = (wLog3.getD i default).y
            ∧ ((loadRecq (saveRecq wLog3)).getD i default).button
                = (wLog3.getD i default).button
            ∧ ((loadRecq (saveRecq wLog3)).getD i default).pressed
                = (wLog3.getD i default).pressed)
        ∧ ((wLog3.getD i default).type = EType.Key →
            ((loadRecq (saveRecq wLog3)).getD i default).keycode
                = (wLog3.getD i default).keycode
            ∧ ((loadRecq (saveRecq wLog3)).getD i default).pressed
                = (wLog3.getD i default).pressed)
        ∧ ((loadRecq (saveRecq wLog3)).getD i default).monitor = ""
        ∧ ((loadRecq (saveRecq wLog3)).getD i default).relx = 0
        ∧ ((loadRecq (saveRecq wLog3)).getD i default).rely = 0) :=
  ⟨⟨by decide, by decide⟩, C5_save_load_roundtrip wLog3 (by decide) (by decide)⟩

/-- Claim C6: a legacy bare array of event records loads to exactly the
same in-memory log as the wrapped `{format, events}` object holding the
same records, whatever the format string. -/
theorem C6_legacy_array_load (fmt : String) (rs : List JRec) :
    loadRecq (RecqDoc.arrDoc rs) = loadRecq (RecqDoc.objDoc fmt rs) := by
  have hbranch : ∀ r : JRec, loadRecArrBranch r = loadRecObjBranch r := fun r => rfl
  simp [loadRecq, hbranch]

/-- Claim C7, amended: loading never drops a record — the result has one
event per record.  A record whose `type` is none of "mm"/"mb"/"key"
contributes the zero-initialised `Event e{}` with only the record's
timestamp set (so a `MouseMove` tag at position (0,0)), while valid
records load to their decoded events as usual. -/
theorem C7_unknown_type_kept (fmt : String) (rs : List JRec) (i : Nat) (hi : i < rs.length) :
    (loadRecq (RecqDoc.objDoc fmt rs)).length = rs.length
    ∧ ((rs.getD i default).rtype ≠ "mm" → (rs.getD i default).rtype ≠ "mb" →
        (rs.getD i default).rtype ≠ "key" →
        (loadRecq (RecqDoc.objDoc fmt rs)).getD i default
          = { ms_since_start := (rs.getD i default).t })
    ∧ ((rs.getD i default).rtype = "mm" →
        (loadRecq (RecqDoc.objDoc fmt rs)).getD i default
          = { type := EType.MouseMove, ms_since_start := (rs.getD i default).t
              x := (rs.getD i default).x, y := (rs.getD i default).y })
    ∧ ((rs.getD i default).rtype = "mb" →
        (loadRecq (RecqDoc.objDoc fmt rs)).getD i default
          = { type := EType.MouseButton, ms_since_start := (rs.getD i default).t
              x := (rs.getD i default).x, y := (rs.getD i default).y
              button := (rs.getD i default).btn, pressed := (rs.getD i default).down })
    ∧ ((rs.getD i default).rtype = "key" →
        (loadRecq (RecqDoc.objDoc fmt rs)).getD i default
          = { type := EType.Key, ms_since_start := (rs.getD i default).t
              keycode := intToKc (rs.getD i default).code
              pressed := (rs.getD i default).down }) := by
  have hget : (loadRecq (RecqDoc.objDoc fmt rs)).getD i default
      = loadRecObjBranch (rs.getD i default) :=
    getD_map_lt loadRecObjBranch rs i hi
  have hunk : ∀ r : JRec, r.rtype ≠ "mm" → r.rtype ≠ "mb" → r.rtype ≠ "key" →
      loadRecObjBranch r = { ms_since_start := r.t } := by
    intro r h1 h2 h3; simp [loadRecObjBranch, h1, h2, h3]
  have hmm : ∀ r : JRec, r.rtype = "mm" →
      loadRecObjBranch r
        = { type := EType.MouseMove, ms_since_start := r.t, x := r.x, y := r.y } := by
    intro r h1; simp [loadRecObjBranch, h1]
  have hmb : ∀ r : JRec, r.rtype = "mb" →
      loadRecObjBranch r
        = { type := EType.MouseButton, ms_since_start := r.t, x := r.x, y := r.y
            button := r.btn, pressed := r.down } := by
    intro r h1; simp [loadRecObjBranch, h1]
  have hkey : ∀ r : JRec, r.rtype = "key" →
      loadRecObjBranch r
        = { type := EType.Key, ms_since_start := r.t, keycode := intToKc r.code
            pressed := r.down } := by
    intro r h1; simp [loadRecObjBranch, h1]
  refine ⟨by simp [loadRecq], ?_, ?_, ?_, ?_⟩
  · intro h1 h2 h3
    rw [hget, hunk _ h1 h2 h3]
  · intro h1
    rw [hget, hmm _ h1]
  · intro h1
    rw [hget, hmb _ h1]
  · intro h1
    rw [hget, hkey _ h1]

/-- Records for the C7 counterexample: a valid key record, a record with
the unknown type "frob", and a valid mouse-move record. -/
def rGoodKey : JRec := { t := 5, rtype := "key", code := 10, down := true }

def rBad : JRec := { t := 42, rtype := "frob" }

def rGoodMm : JRec := { t := 50, rtype := "mm", x := 3, y := 4 }

/-- Counterexample to claim C7 as stated: `out.push_back(e)` runs for
every record of the array, so the document
`{format: "recq-v1", events: [key, frob, mm]}` loads to three events,
not two — the unknown-type record is not dropped; it shows up as a
zero-initialised `MouseMove` event at (0,0) carrying the record's
timestamp 42. -/
theorem C7_counterexample :
    (loadRecq (RecqDoc.objDoc "recq-v1" [rGoodKey, rBad, rGoodMm])).length = 3
    ∧ (loadRecq (RecqDoc.objDoc "recq-v1" [rGoodKey, rBad, rGoodMm])).getD 1 default
        = { type := EType.MouseMove, ms_since_start := 42 } := by
  decide

/-- Witness for the amended claim C7 at the concrete document of the
counterexample, index 1 (the unknown-type record). -/
theorem C7_witness :
    (1 < ([rGoodKey, rBad, rGoodMm] : List JRec).length)
    ∧ ((loadRecq (RecqDoc.objDoc "recq-v1" [rGoodKey, rBad, rGoodMm])).length
        = ([rGoodKey, rBad, rGoodMm] : List JRec).length
      ∧ ((([rGoodKey, rBad, rGoodMm] : List JRec).getD 1 default).rtype ≠ "mm" →
          (([rGoodKey, rBad, rGoodMm] : List JRec).getD 1 default).rtype ≠ "mb" →
          (([rGoodKey, rBad, rGoodMm] : List JRec).getD 1 default).rtype ≠ "key" →
          (loadRecq (RecqDoc.objDoc "recq-v1" [rGoodKey, rBad, rGoodMm])).getD 1 default
            = { ms_since_start := (([rGoodKey, rBad, rGoodMm] : List JRec).getD 1 default).t })
      ∧ ((([rGoodKey, rBad, rGoodMm] : List JRec).getD 1 default).rtype = "mm" →
          (loadRecq (RecqDoc.objDoc "recq-v1" [rGoodKey, rBad, rGoodMm])).getD 1 default
            = { type := EType.MouseMove
                ms_since_start := (([rGoodKey, rBad, rGoodMm] : List JRec).getD 1 default).t
                x := (([rGoodKey, rBad, rGoodMm] : List JRec).getD 1 default).x
                y := (([rGoodKey, rBad, rGoodMm] : List JRec).getD 1 default).y })
      ∧ ((([rGoodKey, rBad, rGoodMm] : List JRec).getD 1 default).rtype = "mb" →
          (loadRecq (RecqDoc.objDoc "recq-v1" [rGoodKey, rBad, rGoodMm])).getD 1 default
            = { type := EType.MouseButton
                ms_since_start := (([rGoodKey, rBad, rGoodMm] : List JRec).getD 1 default).t
                x := (([rGoodKey, rBad, rGoodMm] : List JRec).getD 1 default).x
                y := (([rGoodKey, rBad, rGoodMm] : List JRec).getD 1 default).y
                button := (([rGoodKey, rBad, rGoodMm] : List JRec).getD 1 default).btn
                pressed := (([rGoodKey, rBad, rGoodMm] : List JRec).getD 1 default).down })
      ∧ ((([rGoodKey, rBad, rGoodMm] : List JRec).getD 1 default).rtype = "key" →
          (loadRecq (RecqDoc.objDoc "recq-v1" [rGoodKey, rBad, rGoodMm])).getD 1 default
            = { type := EType.Key
                ms_since_start := (([rGoodKey, rBad, rGoodMm] : List JRec).getD 1 default).t
                keycode := intToKc (([rGoodKey, rBad, rGoodMm] : List JRec).getD 1 default).code
                pressed := (([rGoodKey, rBad, rGoodMm] : List JRec).getD 1 default).down })) :=
  ⟨by decide, C7_unknown_type_kept "recq-v1" [rGoodKey, rBad, rGoodMm] 1 (by decide)⟩

/-! ## Hotkey detection (`GlobalKeyWatcher::run` and the
`currentDownSetChanged` handler in `MainWindow::MainWindow`) -/

/-- `struct HotkeyCombo { std::vector<unsigned int> keys; QString
displayName; }` — order-preserving, duplicates possible in principle. -/
structure HotkeyCombo where
  keys : List Nat
  displayName : String
deriving DecidableEq

/-- `std::sort` on a copy of a combo's key vector (the handler sorts the
saved keys before comparing). -/
def sortedKeys (keys : List Nat) : List Nat := List.insertionSort (· ≤ ·) keys

/-- `std::set<unsigned int>::insert`: the set is modelled as its
iteration order, a strictly increasing list; inserting a present key is
a no-op. -/
def setInsert (code : Nat) : List Nat → List Nat
  | [] => [code]
  | a :: rest =>
    if code < a then code :: a :: rest
    else if code = a then a :: rest
    else a :: setInsert code rest

/-- `std::set<unsigned int>::erase`. -/
def setErase (code : Nat) (s : List Nat) : List Nat :=
  s.filter (fun x => decide (x ≠ code))

/-- The per-combo test of the `currentDownSetChanged` handler: skip an
empty combo, otherwise trigger exactly when the sorted saved keys equal
the emitted down-set vector. -/
def handlerTriggers (combo : HotkeyCombo) (downSorted : List Nat) : Bool :=
  !combo.keys.isEmpty && decide (sortedKeys combo.keys = downSorted)

/-- The sequence of snapshots `GlobalKeyWatcher::run` emits for a raw
key stream (`std::vector<unsigned int> v(downSet.begin(),
downSet.end())`, in the set's increasing order): insert on press, erase
on release, and emit after every notification — including notifications
that do not change the set. -/
def watcherEmits : List Nat → List (Bool × Nat) → List (List Nat)
  | _, [] => []
  | s, (press, code) :: rest =>
    let s2 := if press then setInsert code s else setErase code s
    s2 :: watcherEmits s2 rest

/-- How often a combo's action is invoked over a raw key stream: the
handler runs once per emitted snapshot. -/
def triggerCount (combo : HotkeyCombo) (stream : List (Bool × Nat)) : Nat :=
  ((watcherEmits [] stream).filter (fun v => handlerTriggers combo v)).length

/-- Claim C8: for a configured non-empty combo and any emitted down-set
snapshot (a strictly increasing key list, as a `std::set` iterates), the
action triggers exactly when the sorted combo keys equal the snapshot;
the trigger is invariant under permuting the stored keys, does not fire
while only a proper subset of the combo is held, and does not fire
while any extra key is held. -/
theorem C8_hotkey_exact_set_match (combo : HotkeyCombo) (down : List Nat)
    (h : combo.keys ≠ []) (_hs : List.Sorted (· < ·) down) :
    (handlerTriggers combo down = true ↔ sortedKeys combo.keys = down)
    ∧ (∀ keys2 : List Nat, keys2.Perm combo.keys →
        handlerTriggers { keys := keys2, displayName := combo.displayName } down
          = handlerTriggers combo down)
    ∧ (down.toFinset ⊂ combo.keys.toFinset → handlerTriggers combo down = false)
    ∧ (combo.keys.toFinset ⊂ down.toFinset → handlerTriggers combo down = false) := by
  have hne : combo.keys.isEmpty = false := by
    cases hk : combo.keys with
    | nil => exact absurd hk h
    | cons a l => rfl
  have hiff : handlerTriggers combo down = true ↔ sortedKeys combo.keys = down := by
    simp [handlerTriggers, hne]
  have hfin : handlerTriggers combo down = true → combo.keys.toFinset = down.toFinset := by
    intro htr
    have hs2 := hiff.mp htr
    have h1 : (sortedKeys combo.keys).toFinset = combo.keys.toFinset :=
      List.toFinset_eq_of_perm _ _ (List.perm_insertionSort _ combo.keys)
    rw [← h1, hs2]
  refine ⟨hiff, ?_, ?_, ?_⟩
  · intro keys2 hperm
    have hne2 : keys2 ≠ [] := by
      intro hnil
      exact h ((hnil ▸ hperm).symm.eq_nil)
    have hne2e : keys2.isEmpty = false := by
      cases hk : keys2 with
      | nil => exact absurd hk hne2
      | cons a l => rfl
    have hsort : sortedKeys keys2 = sortedKeys combo.keys :=
      List.eq_of_perm_of_sorted
        ((List.perm_insertionSort _ keys2).trans
          (hperm.trans (List.perm_insertionSort _ combo.keys).symm))
        (List.sorted_insertionSort _ keys2) (List.sorted_insertionSort _ combo.keys)
    simp [handlerTriggers, hne, hne2e, hsort]
  · intro hsub
    cases htr : handlerTriggers combo down with
    | false => rfl
    | true => exact absurd (hfin htr).symm (ne_of_ssubset hsub)
  · intro hsub
    cases htr : handlerTriggers combo down with
    | false => rfl
    | true => exact absurd (hfin htr) (ne_of_ssubset hsub)

/-- Combo "A + B" (X keycodes 38 and 56), saved in reverse order to
exercise order independence. -/
def comboBA : HotkeyCombo := { keys := [56, 38], displayName := "A + B" }

/-- Witness for C8: combo saved as [56, 38] triggers on the held
snapshot [38, 56], triggers identically when stored as [38, 56], and
does not trigger while only [38] (a proper subset) is held. -/
theorem C8_witness :
    (comboBA.keys ≠ [] ∧ List.Sorted (· < ·) [38, 56] ∧ List.Sorted (· < ·) ([38] : List Nat))
    ∧ (handlerTriggers comboBA [38, 56] = true ↔ sortedKeys comboBA.keys = [38, 56])
    ∧ handlerTriggers { keys := [38, 56], displayName := comboBA.displayName } [38, 56]
        = handlerTriggers comboBA [38, 56]
    ∧ handlerTriggers comboBA [38] = false :=
  ⟨⟨by decide, by decide, by decide⟩,
   (C8_hotkey_exact_set_match comboBA [38, 56] (by decide) (by decide)).1,
   (C8_hotkey_exact_set_match comboBA [38, 56] (by decide) (by decide)).2.1 [38, 56] (by decide),
   (C8_hotkey_exact_set_match comboBA [38] (by decide) (by decide)).2.2.1 (by decide)⟩

/-- Claim C9 is contradicted by the code: the watcher emits its snapshot
on every raw key notification — `downSet.insert(code)` on an
already-held keycode is a no-op on the set, yet the (unchanged) sorted
snapshot is emitted again and the stateless handler re-fires the
combo's action.  Pressing 38, then 56, then an auto-repeat press of 56
while the set stays {38, 56} invokes the matched action twice, where the
claim requires exactly one firing per transition into the matching
state. -/
theorem C9_autorepeat_refires :
    triggerCount { keys := [38, 56], displayName := "A + B" }
        [(true, 38), (true, 56), (true, 56)] = 2 := by
  decide

/-! ## Combo capture dialog (`MainWindow::openCaptureDialog`) -/

/-- The in-progress sequence right after the dialog opens: it starts as a
copy of the slot's saved keys, but the pre-exec guard
`if (seq.size() >= 3) { seq.clear(); ... }` empties it whenever the
saved combo already has 3 (or more) keys. -/
def dialogInitSeq (saved : List Nat) : List Nat :=
  if 3 ≤ saved.length then [] else saved

/-- `comboToDisplay`: "None" for an empty combo, otherwise the
key names joined with " + " (`nameOf` abstracts `keycodeToString`). -/
def comboToDisplay (nameOf : Nat → String) (keys : List Nat) : String :=
  if keys.isEmpty then "None" else String.intercalate " + " (keys.map nameOf)

/-- The Save button handler: commit the current sequence as the slot's
keys, with display name "None" for an empty sequence. -/
def dialogSaveCommit (nameOf : Nat → String) (seq : List Nat) : HotkeyCombo :=
  { keys := seq
    displayName := if seq.isEmpty then "None" else comboToDisplay nameOf seq }

/-- Claim C10: opening the capture dialog for a slot whose saved combo
already has 3 keys clears the in-progress sequence, so pressing Save
immediately commits an empty combo with display name "None" instead of
preserving the existing binding. -/
theorem C10_dialog_clears_full_combo (saved : List Nat) (nameOf : Nat → String)
    (h : saved.length = 3) :
    dialogInitSeq saved = []
    ∧ dialogSaveCommit nameOf (dialogInitSeq saved) = { keys := [], displayName := "None" } := by
  have h3 : dialogInitSeq saved = [] := by simp [dialogInitSeq, h]
  exact ⟨h3, by simp [dialogSaveCommit, h3]⟩

/-- Witness for C10 at the saved 3-key combo [10, 20, 30]. -/
theorem C10_witness :
    ([10, 20, 30] : List Nat).length = 3
    ∧ (dialogInitSeq [10, 20, 30] = []
      ∧ dialogSaveCommit (fun _ => "k") (dialogInitSeq [10, 20, 30])
          = { keys := [], displayName := "None" }) :=
  ⟨by decide, C10_dialog_clears_full_combo [10, 20, 30] (fun _ => "k") (by decide)⟩

end BiggerTask
